import Mathlib

/-!
Verification of the ScriptSensei video-processing service's job subsystem.

The definitions below are a shallow embedding of the Python sources of
`services/video-processing-service/app`:
* `app/models/job.py`        → `JobStatus`, `VideoJob` and its mutators
* `app/services/job_service.py` → `JobStore` and the service operations
  (Redis keys `job:{id}`, `user:{uid}:jobs`, `jobs:status:{state}` are
  modelled by an association list and two secondary indexes; a Redis
  sorted-set insertion `ZADD` is membership-preserving append)
* `app/tasks/video_tasks.py` → `onFailure`, `cancelJobTask`
* `app/services/video_generation_service.py` → progress-emission traces
  and the scene/audio/subtitle timing pipeline
* `app/services/video_processor.py` → submission validation, rate limiting
* `app/queue/job_queue.py` together with CPython's `heapq`
  (used by `asyncio.PriorityQueue`) → the priority queue

Timestamps, durations and progress fractions are modelled as rationals;
identifiers are strings.
-/

namespace ScriptSensei

/-- `JobStatus` from `app/models/job.py`. -/
inductive JobStatus where
  | pending
  | started
  | processing
  | success
  | failure
  | cancelled
  deriving DecidableEq, Repr

/-- `VideoJob` from `app/models/job.py`.  The `result` dict payload is kept
abstract as an optional string. -/
structure VideoJob where
  job_id : String
  user_id : String
  script_id : String
  status : JobStatus := JobStatus.pending
  progress : ℚ := 0
  progress_message : String := "Job queued"
  result : Option String := none
  error : Option String := none
  error_traceback : Option String := none
  created_at : ℚ
  started_at : Option ℚ := none
  completed_at : Option ℚ := none
  retry_count : Nat := 0
  max_retries : Nat := 3
  priority : Nat := 5
  deriving DecidableEq, Repr

namespace VideoJob

/-- `VideoJob.update_progress`: set progress and message; a PENDING job
flips to PROCESSING. -/
def updateProgress (j : VideoJob) (progress : ℚ) (message : String) : VideoJob :=
  let j2 := { j with progress := progress, progress_message := message }
  if j2.status = JobStatus.pending then { j2 with status := JobStatus.processing } else j2

/-- `VideoJob.mark_started`: unconditionally set STARTED and stamp
`started_at` with the current time. -/
def markStarted (j : VideoJob) (now : ℚ) : VideoJob :=
  { j with status := JobStatus.started, started_at := some now }

/-- `VideoJob.mark_success`. -/
def markSuccess (j : VideoJob) (result : String) (now : ℚ) : VideoJob :=
  { j with status := JobStatus.success, result := some result,
           completed_at := some now, progress := 1,
           progress_message := "Video generation completed" }

/-- `VideoJob.mark_failure`: note that `progress` is left untouched. -/
def markFailure (j : VideoJob) (error : String) (tb : Option String) (now : ℚ) : VideoJob :=
  { j with status := JobStatus.failure, error := some error, error_traceback := tb,
           completed_at := some now, progress_message := "Failed: " ++ error }

/-- `VideoJob.mark_cancelled`: unconditional, no terminal-state guard. -/
def markCancelled (j : VideoJob) (now : ℚ) : VideoJob :=
  { j with status := JobStatus.cancelled, completed_at := some now,
           progress_message := "Job cancelled by user" }

/-- `VideoJob.can_retry`. -/
def canRetry (j : VideoJob) : Bool :=
  j.status = JobStatus.failure && j.retry_count < j.max_retries

/-- `VideoJob.increment_retry`: bump the counter, go back to PENDING and
clear the error fields; `progress` is not reset. -/
def incrementRetry (j : VideoJob) : VideoJob :=
  { j with retry_count := j.retry_count + 1, status := JobStatus.pending,
           error := none, error_traceback := none,
           progress_message :=
             "Retrying (attempt " ++ toString (j.retry_count + 1) ++ "/"
               ++ toString j.max_retries ++ ")" }

/-- `VideoJob.is_complete`. -/
def isComplete (j : VideoJob) : Bool :=
  j.status = JobStatus.success || j.status = JobStatus.failure
    || j.status = JobStatus.cancelled

end VideoJob

/-- Association-list lookup (Redis `GET` on string keys). -/
def getAssoc {α : Type} : List (String × α) → String → Option α
  | [], _ => none
  | (k, v) :: rest, key => if k = key then some v else getAssoc rest key

/-- Association-list write (Redis `SET`/`SETEX`: replace or insert). -/
def setAssoc {α : Type} : List (String × α) → String → α → List (String × α)
  | [], key, v => [(key, v)]
  | (k, w) :: rest, key, v =>
      if k = key then (key, v) :: rest else (k, w) :: setAssoc rest key v

/-- Association-list delete (Redis `DEL`). -/
def delAssoc {α : Type} : List (String × α) → String → List (String × α)
  | [], _ => []
  | (k, w) :: rest, key => if k = key then rest else (k, w) :: delAssoc rest key

/-- Redis `ZADD`: membership-preserving insertion of an id into a sorted
set.  Secondary indexes only ever receive monotone scores, so a fresh
member goes to the back; adding an existing member only refreshes its
score and leaves membership unchanged. -/
def zaddId (l : List String) (id : String) : List String :=
  if id ∈ l then l else l ++ [id]

/-- Redis `ZREM`. -/
def zremId (l : List String) (id : String) : List String :=
  l.filter (fun x => x ≠ id)

/-- State of `JobService` (`app/services/job_service.py`) backed by Redis:
records keyed `job:{id}`, per-user index `user:{uid}:jobs`, per-status
indexes `jobs:status:{state}`. -/
structure JobStore where
  data : List (String × VideoJob) := []
  userIdx : List (String × List String) := []
  statusIdx : JobStatus → List String := fun _ => []

namespace JobStore

/-- `JobService.create_job`: write the record, add to the user index and
the PENDING status index.  The fresh uuid is passed in as `jobId`. -/
def createJob (s : JobStore) (userId scriptId : String) (priority maxRetries : Nat)
    (jobId : String) (now : ℚ) : JobStore × VideoJob :=
  let job : VideoJob :=
    { job_id := jobId, user_id := userId, script_id := scriptId,
      status := JobStatus.pending, priority := priority,
      max_retries := maxRetries, created_at := now }
  let userList := (getAssoc s.userIdx userId).getD []
  ({ data := setAssoc s.data jobId job,
     userIdx := setAssoc s.userIdx userId (zaddId userList jobId),
     statusIdx := fun st =>
       if st = JobStatus.pending then zaddId (s.statusIdx JobStatus.pending) jobId
       else s.statusIdx st }, job)

/-- `JobService.get_job`. -/
def getJob (s : JobStore) (jobId : String) : Option VideoJob :=
  getAssoc s.data jobId

/-- `JobService.update_job`: rewrite the record and `ZADD` the job id to
the index of its **current** status.  No removal from any other status
index takes place. -/
def updateJob (s : JobStore) (j : VideoJob) : JobStore :=
  { data := setAssoc s.data j.job_id j,
    userIdx := s.userIdx,
    statusIdx := fun st =>
      if st = j.status then zaddId (s.statusIdx j.status) j.job_id
      else s.statusIdx st }

/-- `JobService.update_progress`. -/
def serviceUpdateProgress (s : JobStore) (jobId : String) (p : ℚ) (msg : String) :
    JobStore × Option VideoJob :=
  match s.getJob jobId with
  | none => (s, none)
  | some j =>
      let j2 := j.updateProgress p msg
      (s.updateJob j2, some j2)

/-- `JobService.mark_started`. -/
def serviceMarkStarted (s : JobStore) (jobId : String) (now : ℚ) :
    JobStore × Option VideoJob :=
  match s.getJob jobId with
  | none => (s, none)
  | some j =>
      let j2 := j.markStarted now
      (s.updateJob j2, some j2)

/-- `JobService.mark_success`. -/
def serviceMarkSuccess (s : JobStore) (jobId : String) (result : String) (now : ℚ) :
    JobStore × Option VideoJob :=
  match s.getJob jobId with
  | none => (s, none)
  | some j =>
      let j2 := j.markSuccess result now
      (s.updateJob j2, some j2)

/-- `JobService.mark_failure`. -/
def serviceMarkFailure (s : JobStore) (jobId : String) (error : String)
    (tb : Option String) (now : ℚ) : JobStore × Option VideoJob :=
  match s.getJob jobId with
  | none => (s, none)
  | some j =>
      let j2 := j.markFailure error tb now
      (s.updateJob j2, some j2)

/-- `JobService.mark_cancelled`: fetch, mutate unconditionally, update. -/
def serviceMarkCancelled (s : JobStore) (jobId : String) (now : ℚ) :
    JobStore × Option VideoJob :=
  match s.getJob jobId with
  | none => (s, none)
  | some j =>
      let j2 := j.markCancelled now
      (s.updateJob j2, some j2)

/-- `JobService.delete_job`: remove the record and its entries in the user
index and the index of its **current** status. -/
def deleteJob (s : JobStore) (jobId : String) : JobStore × Bool :=
  match s.getJob jobId with
  | none => (s, false)
  | some j =>
      ({ data := delAssoc s.data jobId,
         userIdx := setAssoc s.userIdx j.user_id
           (zremId ((getAssoc s.userIdx j.user_id).getD []) jobId),
         statusIdx := fun st =>
           if st = j.status then zremId (s.statusIdx j.status) jobId
           else s.statusIdx st }, true)

/-- `JobService.get_user_jobs`: `ZREVRANGE user:{uid}:jobs offset
offset+limit-1`, then fetch each record, silently skipping ids whose
record no longer exists.  The API layers enforce `limit ≥ 1`. -/
def getUserJobs (s : JobStore) (userId : String) (limit offset : Nat) :
    List VideoJob :=
  let ids := (((getAssoc s.userIdx userId).getD []).reverse.drop offset).take limit
  ids.filterMap s.getJob

/-- `JobService.get_jobs_by_status`: `ZRANGE jobs:status:{state} 0 limit-1`
(oldest first), then fetch each record, silently skipping missing ones. -/
def getJobsByStatus (s : JobStore) (st : JobStatus) (limit : Nat) : List VideoJob :=
  ((s.statusIdx st).take limit).filterMap s.getJob

end JobStore

/-- Outcome of the Celery failure handler. -/
inductive FailureAction where
  | retryTask (countdown : Nat)
  | markFailed
  deriving DecidableEq, Repr

/-- `VideoGenerationTask.on_failure` (`app/tasks/video_tasks.py`): if the
job can retry, `increment_retry` + `update_job` and re-issue the task with
a 60-second countdown; otherwise `mark_failure`. -/
def onFailure (s : JobStore) (jobId : String) (errMsg errTrace : String) (now : ℚ) :
    JobStore × FailureAction :=
  match s.getJob jobId with
  | some j =>
      if j.canRetry then
        (s.updateJob j.incrementRetry, FailureAction.retryTask 60)
      else
        ((s.serviceMarkFailure jobId errMsg (some errTrace) now).1,
          FailureAction.markFailed)
  | none =>
      ((s.serviceMarkFailure jobId errMsg (some errTrace) now).1,
        FailureAction.markFailed)

/-- `cancel_job` task (`app/tasks/video_tasks.py`): refuse on a missing or
already-complete job, otherwise `mark_cancelled`. -/
def cancelJobTask (s : JobStore) (jobId : String) (now : ℚ) : JobStore × Bool :=
  match s.getJob jobId with
  | none => (s, false)
  | some j =>
      if j.isComplete then (s, false)
      else ((s.serviceMarkCancelled jobId now).1, true)

/-! ### Pipeline driver (`app/services/video_generation_service.py`) -/

/-- Transient `Scene` (`app/services/video_scene_renderer.py`); the
narration stage stores the TTS output path in the dynamically-assigned
`audio_file` attribute, so it is optional here. -/
structure Scene where
  text : String
  duration : ℚ := 0
  image_path : Option String := none
  transition_type : String := "cut"
  audio_file : Option String := none
  deriving DecidableEq, Repr

/-- `SubtitleSegment` (`app/services/subtitle_generator.py`). -/
structure SubtitleSegment where
  text : String
  start_time : ℚ
  end_time : ℚ
  deriving DecidableEq, Repr

/-- `_generate_audio_for_scenes`: for each scene, synthesize audio
(`synth` models `VoiceSynthesizer.synthesize`), store the path on the
scene, and overwrite `scene.duration` with the probed duration of that
audio file (`probe` models `_get_audio_duration`). -/
def generateAudioForScenes (synth : String → String) (probe : String → ℚ)
    (scenes : List Scene) : List Scene :=
  scenes.map (fun sc =>
    { sc with audio_file := some (synth sc.text),
              duration := probe (synth sc.text) })

/-- Shift one subtitle segment by a time offset (the
`segment.start_time += current_time` lines of `_add_subtitles_to_video`). -/
def shiftSegment (seg : SubtitleSegment) (offset : ℚ) : SubtitleSegment :=
  { seg with start_time := seg.start_time + offset,
             end_time := seg.end_time + offset }

/-- The per-scene loop of `_add_subtitles_to_video`: generate segments for
each scene (`gen` models `SubtitleGenerator.generate_subtitles` applied to
the scene's audio file and text), shift them by the running
`current_time`, and advance `current_time` by the scene's duration. -/
def collectSubtitleSegments (gen : String → String → List SubtitleSegment) :
    List Scene → ℚ → List SubtitleSegment
  | [], _ => []
  | sc :: rest, currentTime =>
      ((gen (sc.audio_file.getD "") sc.text).map
        (fun seg => shiftSegment seg currentTime))
        ++ collectSubtitleSegments gen rest (currentTime + sc.duration)

/-- The offset each scene's segments receive: `current_time` before that
scene is processed. -/
def offsetsFrom (cur : ℚ) : List Scene → List ℚ
  | [] => []
  | sc :: rest => cur :: offsetsFrom (cur + sc.duration) rest

/-- Progress values emitted inside the narration loop:
`0.30 + 0.30 * (i + 1) / total_scenes`. -/
def audioSceneEmits (n : Nat) : List ℚ :=
  (List.range n).map (fun (i : Nat) => 3/10 + (3/10) * ((i : ℚ) + 1) / (n : ℚ))

/-- Progress callbacks issued by `FFmpegCompositor.compose_video`: a single
segment reports only `1.0`; otherwise `(i + 1) / (n + 1)` per segment and
a final `1.0`. -/
def compositorEmits (n : Nat) : List ℚ :=
  if n = 1 then [1]
  else ((List.range n).map (fun (i : Nat) => ((i : ℚ) + 1) / ((n : ℚ) + 1))) ++ [1]

/-- `compositor_progress` in `_compose_final_video`:
`overall = 0.80 + progress * 0.15`. -/
def mapCompositorProgress (p : ℚ) : ℚ := 4/5 + p * (3/20)

/-- The full sequence of progress fractions `generate_video` emits on a
successful attempt with `n` scenes: 0.05 initialize, 0.10 parse, 0.30
audio start, the narration loop, 0.60 segments, 0.75 compose, the mapped
compositor callbacks, 0.85 subtitles when enabled, 0.95 thumbnail, 1.0
complete. -/
def successEmits (n : Nat) (enableSubtitles : Bool) : List ℚ :=
  [1/20, 1/10, 3/10] ++ audioSceneEmits n ++ [3/5, 3/4]
    ++ (compositorEmits n).map mapCompositorProgress
    ++ (if enableSubtitles then [17/20] else [])
    ++ [19/20, 1]

/-- Emissions of an attempt whose narration raises at scene `k` (0-based):
the prefix up to scene `k`, then the final `-1` emitted by the exception
handler of `generate_video`. -/
def failureEmitsDuringAudio (n k : Nat) : List ℚ :=
  [1/20, 1/10, 3/10] ++ (audioSceneEmits n).take k ++ [-1]

/-! ### Submission, validation, rate limiting
(`app/models/video.py`, `app/services/video_processor.py`,
`app/api/jobs.py`) -/

/-- The fields of `VideoRequest` consulted by validation. -/
structure VideoRequest where
  script_id : String
  script_content : String
  platform : String
  language : String := "en"
  aspect_ratio : String := "16:9"
  user_id : String := ""
  deriving DecidableEq, Repr

/-- `validate_aspect_ratio`: the supported ratios. -/
def validAspectRatios : List String := ["16:9", "9:16", "1:1", "4:5"]

/-- Pydantic construction of `VideoRequest`: `script_content` carries
`min_length=1` and the `aspect_ratio` validator restricts it to the four
supported values. -/
def videoRequestParseOk (r : VideoRequest) : Bool :=
  (1 ≤ r.script_content.length) && validAspectRatios.contains r.aspect_ratio

/-- The keys of `VideoProcessor.PLATFORM_SETTINGS`. -/
def knownPlatforms : List String :=
  ["tiktok", "youtube", "youtube_shorts", "instagram_reels",
   "instagram_stories", "facebook"]

/-- Python `str.strip`: remove leading and trailing whitespace. -/
def pyStrip (s : String) : String :=
  String.mk (((s.data.dropWhile Char.isWhitespace).reverse.dropWhile
    Char.isWhitespace).reverse)

/-- `VideoProcessor._validate_request`: script text non-empty after
stripping, platform among the known set. -/
def validateRequest (r : VideoRequest) : Bool :=
  ((pyStrip r.script_content).length ≠ 0) && knownPlatforms.contains r.platform

/-- `CreateJobRequest` (`app/api/jobs.py`): pydantic bound
`priority : int = Field(default=5, ge=1, le=10)`. -/
def createJobRequestParseOk (priority : Int) : Bool :=
  1 ≤ priority && priority ≤ 10

/-- The `/api/v1/jobs` submission path: parsing the request body (with its
priority bound) precedes `JobService.create_job`, so a parse failure
leaves the store untouched. -/
def jobsApiCreate (s : JobStore) (priority : Int) (r : VideoRequest)
    (jobId : String) (now : ℚ) : JobStore × Except Unit String :=
  if videoRequestParseOk r && createJobRequestParseOk priority then
    ((s.createJob r.user_id r.script_id priority.toNat 3 jobId now).1,
      Except.ok jobId)
  else (s, Except.error ())

/-! ### Priority queue (`app/queue/job_queue.py` + CPython `heapq`) -/

/-- `JobPriority` (IntEnum): HIGH=1, NORMAL=2, LOW=3. -/
def JobPriorityHigh : Nat := 1

/-- `JobPriority.NORMAL`. -/
def JobPriorityNormal : Nat := 2

/-- `JobPriority.LOW`. -/
def JobPriorityLow : Nat := 3

/-- A queued `Job` (`app/queue/job_queue.py`).  `seq` records offer order
for bookkeeping only; the comparison does not consult it. -/
structure QJob where
  priority : Nat
  seq : Nat
  label : String
  deriving DecidableEq, Inhabited, Repr

/-- `Job.__lt__`: compares by `priority` alone. -/
def qlt (a b : QJob) : Bool := a.priority < b.priority

/-- CPython `heapq._siftdown` loop; `fuel` at least `pos` suffices since
`pos` strictly decreases. -/
def siftdownLoop : Nat → Array QJob → Nat → Nat → QJob → Array QJob
  | 0, heap, _, pos, newitem => heap.set! pos newitem
  | fuel + 1, heap, startpos, pos, newitem =>
      if startpos < pos then
        let parentpos := (pos - 1) / 2
        let parent := heap.get! parentpos
        if qlt newitem parent then
          siftdownLoop fuel (heap.set! pos parent) startpos parentpos newitem
        else heap.set! pos newitem
      else heap.set! pos newitem

/-- CPython `heapq._siftdown`. -/
def siftdown (heap : Array QJob) (startpos pos : Nat) : Array QJob :=
  siftdownLoop heap.size heap startpos pos (heap.get! pos)

/-- CPython `heapq._siftup` descent loop; returns the final position and
the array with children moved up.  `fuel` at least `heap.size` suffices
since `pos` strictly increases. -/
def siftupLoop : Nat → Array QJob → Nat → QJob → Nat × Array QJob
  | 0, heap, pos, _ => (pos, heap)
  | fuel + 1, heap, pos, newitem =>
      let endpos := heap.size
      let childpos := 2 * pos + 1
      if childpos < endpos then
        let rightpos := childpos + 1
        let childpos :=
          if rightpos < endpos && !(qlt (heap.get! childpos) (heap.get! rightpos))
          then rightpos else childpos
        siftupLoop fuel (heap.set! pos (heap.get! childpos)) childpos newitem
      else (pos, heap)

/-- CPython `heapq._siftup`: move the smaller child up along the path,
place `newitem` at the vacated leaf, then `_siftdown` back toward the
original position. -/
def siftup (heap : Array QJob) (pos : Nat) : Array QJob :=
  let newitem := heap.get! pos
  let r := siftupLoop heap.size heap pos newitem
  let heap2 := r.2.set! r.1 newitem
  siftdown heap2 pos r.1

/-- CPython `heapq.heappush` (`asyncio.PriorityQueue._put`). -/
def heappush (heap : Array QJob) (item : QJob) : Array QJob :=
  let heap2 := heap.push item
  siftdown heap2 0 (heap2.size - 1)

/-- CPython `heapq.heappop` (`asyncio.PriorityQueue._get`). -/
def heappop (heap : Array QJob) : Option (QJob × Array QJob) :=
  if heap.size = 0 then none
  else
    let lastelt := heap.get! (heap.size - 1)
    let heap2 := heap.pop
    if heap2.size = 0 then some (lastelt, heap2)
    else
      let returnitem := heap2.get! 0
      let heap3 := heap2.set! 0 lastelt
      some (returnitem, siftup heap3 0)

/-- Drain the heap, collecting labels in pop order (a single worker taking
jobs back-to-back). -/
def popAllLabels : Nat → Array QJob → List String
  | 0, _ => []
  | fuel + 1, heap =>
      match heappop heap with
      | none => []
      | some (j, h) => j.label :: popAllLabels fuel h

/-! ### `VideoProcessor.create_video_job` submission flow -/

/-- State touched by `VideoProcessor.create_video_job`: the in-memory
rate-limit table `user_video_counts`, the created job records
`(job_id, user_id, created_at)`, and the in-process priority queue. -/
structure PState where
  rate : List (String × List ℤ) := []
  records : List (String × String × ℤ) := []
  heap : Array QJob := #[]
  seqCounter : Nat := 0

/-- Errors surfaced synchronously by submission. -/
inductive SubmitError where
  | validationError
  | rateLimited
  deriving DecidableEq, Repr

/-- The rolling window of `_check_rate_limit`, in seconds. -/
def ratelimitWindow : ℤ := 3600

/-- `VideoProcessor.MAX_VIDEOS_PER_HOUR`. -/
def maxVideosPerHour : Nat := 10

/-- `VideoProcessor.create_video_job`: pydantic parse, `_validate_request`,
`_check_rate_limit` (which trims the user's timestamp list in place and
raises on ≥ 10 surviving entries), record creation,
`_record_video_creation`, and the enqueue — always at
`JobPriority.NORMAL`. -/
def createVideoJob (st : PState) (r : VideoRequest) (jobId : String) (now : ℤ) :
    PState × Except SubmitError String :=
  if !(videoRequestParseOk r) then (st, Except.error SubmitError.validationError)
  else if !(validateRequest r) then (st, Except.error SubmitError.validationError)
  else
    let timestamps := (getAssoc st.rate r.user_id).getD []
    let trimmed := timestamps.filter (fun ts => decide (now - ratelimitWindow < ts))
    let st1 := { st with rate := setAssoc st.rate r.user_id trimmed }
    if maxVideosPerHour ≤ trimmed.length then
      (st1, Except.error SubmitError.rateLimited)
    else
      let st2 := { st1 with
        records := st1.records ++ [(jobId, r.user_id, now)],
        rate := setAssoc st1.rate r.user_id (trimmed ++ [now]),
        heap := heappush st1.heap
          { priority := JobPriorityNormal, seq := st1.seqCounter, label := jobId },
        seqCounter := st1.seqCounter + 1 }
      (st2, Except.ok jobId)

/-- Run a sequence of submissions (request, fresh job id, wall-clock time). -/
def runSubs : PState → List (VideoRequest × String × ℤ) → PState
  | st, [] => st
  | st, (r, jobId, tm) :: rest => runSubs (createVideoJob st r jobId tm).1 rest

/-- Creation timestamps of the job records belonging to one user. -/
def recordTimesFor (st : PState) (u : String) : List ℤ :=
  st.records.filterMap (fun rec => if rec.2.1 = u then some rec.2.2 else none)

/-! ### Concrete fixtures used by counterexamples and witnesses -/

/-- A store holding one freshly created (PENDING) job `J` of user `u1`. -/
def storeWithPendingJob : JobStore :=
  (JobStore.createJob {} "u1" "s1" 5 3 "J" 0).1

/-- The job created in `storeWithPendingJob`. -/
def pendingJobJ : VideoJob :=
  (JobStore.createJob {} "u1" "s1" 5 3 "J" 0).2

/-- `storeWithPendingJob` after `J` was marked SUCCESS and written back via
`update_job`. -/
def storeAfterSuccessUpdate : JobStore :=
  storeWithPendingJob.updateJob (pendingJobJ.markSuccess "ok" 10)

/-- A terminal (SUCCESS) job record. -/
def successJobJ : VideoJob :=
  { job_id := "J", user_id := "u1", script_id := "s1",
    status := JobStatus.success, progress := 1, created_at := 0,
    completed_at := some 5 }

/-- A store holding only the terminal `successJobJ`. -/
def storeWithSuccessJob : JobStore :=
  { data := [("J", successJobJ)], userIdx := [("u1", ["J"])],
    statusIdx := fun st => if st = JobStatus.success then ["J"] else [] }

/-- A FAILURE job with one retry left and partial progress 4/5. -/
def failedJobJ : VideoJob :=
  { job_id := "J", user_id := "u1", script_id := "s1",
    status := JobStatus.failure, progress := 4/5,
    error := some "boom", error_traceback := some "tb",
    created_at := 0, completed_at := some 9,
    retry_count := 0, max_retries := 3 }

/-- A store holding only `failedJobJ`. -/
def storeWithFailedJob : JobStore :=
  { data := [("J", failedJobJ)], userIdx := [("u1", ["J"])],
    statusIdx := fun st => if st = JobStatus.failure then ["J"] else [] }

/-- A store whose PENDING status index holds a dangling id `gone` (its
record expired under the TTL) next to the live job `J`. -/
def storeWithDanglingIndexEntry : JobStore :=
  { data := [("J", pendingJobJ)], userIdx := [("u1", ["gone", "J"])],
    statusIdx := fun st => if st = JobStatus.pending then ["gone", "J"] else [] }

/-- A well-formed submission request from user `u`. -/
def sampleRequest (u : String) : VideoRequest :=
  { script_id := "s", script_content := "Hello world. This is a test.",
    platform := "youtube", user_id := u }

/-- The priority-ordering scenario: jobs A, B, C offered back-to-back
through `create_video_job`.  The scenario's requested priorities 9, 2 and
5 have no representation on this path — `create_video_job` passes
`JobPriority.NORMAL` for every job. -/
def queueScenarioState : PState :=
  runSubs {} [(sampleRequest "u1", "A", 0),
              (sampleRequest "u1", "B", 1),
              (sampleRequest "u1", "C", 2)]

/-- Five equal-priority offers pushed directly into the heap, labelled by
offer order. -/
def equalPriorityHeap : Array QJob :=
  [0, 1, 2, 3, 4].foldl
    (fun h i => heappush h
      { priority := JobPriorityNormal, seq := i, label := toString i }) #[]

/-- Three offers with distinct priority classes pushed directly into the
heap: LOW first, then HIGH, then NORMAL. -/
def mixedPriorityHeap : Array QJob :=
  heappush (heappush (heappush #[]
    { priority := JobPriorityLow, seq := 0, label := "L" })
    { priority := JobPriorityHigh, seq := 1, label := "H" })
    { priority := JobPriorityNormal, seq := 2, label := "N" }

/-- Invariant tying job records to the rate-limit table at current time
`t`: for any user, the records created within any window reaching back no
further than one hour are all still accounted for in the user's timestamp
list, and no timestamp list ever exceeds the cap. -/
def RateInv (st : PState) (t : ℤ) : Prop :=
  (∀ u c, t - ratelimitWindow ≤ c →
    (recordTimesFor st u).countP (fun ts => decide (c < ts))
      ≤ ((getAssoc st.rate u).getD []).countP (fun ts => decide (c < ts)))
  ∧ (∀ u, ((getAssoc st.rate u).getD []).length ≤ maxVideosPerHour)

/-- Wall-clock time after a trace of submissions (the time of the last
one, or the start time for an empty trace). -/
def endTimeOf (t : ℤ) (trace : List (VideoRequest × String × ℤ)) : ℤ :=
  trace.foldl (fun _ x => x.2.2) t

/-- Ten submissions by user `u2`, one second apart. -/
def tenTrace : List (VideoRequest × String × ℤ) :=
  (List.range 10).map (fun i => (sampleRequest "u2", toString i, (i : ℤ)))

/-- The state after `tenTrace`. -/
def tenSubmissionState : PState := runSubs {} tenTrace

/-- `tenTrace` followed by an eleventh submission at time 10. -/
def elevenTrace : List (VideoRequest × String × ℤ) :=
  tenTrace ++ [(sampleRequest "u2", "K", 10)]

/-- A request whose script is whitespace only (empty after stripping). -/
def blankScriptRequest : VideoRequest :=
  { script_id := "s", script_content := "   ", platform := "youtube",
    user_id := "u1" }

/-- Two parsed scenes with word-count duration estimates. -/
def sampleScenes : List Scene :=
  [{ text := "Hello world", duration := 3 },
   { text := "This is a test", duration := 4 }]

/-- A concrete TTS collaborator: audio path derived from the text. -/
def sampleSynth (t : String) : String := t ++ ".mp3"

/-- A concrete probe collaborator: measured duration derived from the
audio path. -/
def sampleProbe (a : String) : ℚ := (a.length : ℚ) / 10

/-- A concrete subtitle collaborator: one segment over the scene text. -/
def sampleGen (_audio t : String) : List SubtitleSegment :=
  [{ text := t, start_time := 0, end_time := 1 }]

end ScriptSensei

namespace ScriptSensei

/-! ## Helper lemmas -/

theorem getAssoc_setAssoc_self {α : Type} (l : List (String × α)) (k : String) (v : α) :
    getAssoc (setAssoc l k v) k = some v := by
  induction l with
  | nil => simp [setAssoc, getAssoc]
  | cons hd tl ih =>
      obtain ⟨k0, v0⟩ := hd
      by_cases h : k0 = k
      · simp [setAssoc, getAssoc, h]
      · simp [setAssoc, getAssoc, h, ih]

theorem setAssoc_setAssoc {α : Type} (l : List (String × α)) (k : String)
    (v w : α) : setAssoc (setAssoc l k v) k w = setAssoc l k w := by
  induction l with
  | nil => simp [setAssoc]
  | cons hd tl ih =>
      obtain ⟨k0, v0⟩ := hd
      by_cases h : k0 = k
      · simp [setAssoc, h]
      · simp [setAssoc, h, ih]

theorem mem_zaddId_self (l : List String) (a : String) : a ∈ zaddId l a := by
  by_cases h : a ∈ l <;> simp [zaddId, h]

theorem mem_zaddId_of_mem {l : List String} {a : String} (b : String) (h : a ∈ l) :
    a ∈ zaddId l b := by
  by_cases hb : b ∈ l <;> simp [zaddId, hb, h]

theorem getJob_updateJob_self (s : JobStore) (j : VideoJob) :
    (s.updateJob j).getJob j.job_id = some j := by
  simp [JobStore.getJob, JobStore.updateJob, getAssoc_setAssoc_self]

theorem getAssoc_setAssoc_ne {α : Type} (l : List (String × α)) (k k2 : String)
    (v : α) (h : k2 ≠ k) : getAssoc (setAssoc l k v) k2 = getAssoc l k2 := by
  induction l with
  | nil => simp [setAssoc, getAssoc, Ne.symm h]
  | cons hd tl ih =>
      obtain ⟨k0, v0⟩ := hd
      by_cases h0 : k0 = k
      · subst h0
        simp [setAssoc, getAssoc, Ne.symm h]
      · simp [setAssoc, getAssoc, h0, ih]

/-! ## C1 — status secondary indexes under `update_job` -/

/-- C1, counterexample.  After `create_job` put `J` into the PENDING index
and `update_job` wrote it back in state SUCCESS, the job id is a member of
**both** the PENDING and the SUCCESS status indexes: `update_job` never
removes the id from the index of the previous state, refuting the claim
that a job appears in exactly one status index after an update. -/
theorem update_job_leaves_stale_status_index_entry :
    "J" ∈ storeAfterSuccessUpdate.statusIdx JobStatus.pending
    ∧ "J" ∈ storeAfterSuccessUpdate.statusIdx JobStatus.success
    ∧ (storeAfterSuccessUpdate.getJob "J").map VideoJob.status = some JobStatus.success
    ∧ JobStatus.pending ≠ JobStatus.success := by decide

/-- C1, amended.  `update_job` adds the job id to the index of the job's
current status, leaves the index of every other status unchanged, and in
particular preserves any existing (now stale) membership: a job whose
state changed remains in the index of its previous state. -/
theorem update_job_indexes_current_status_only (s : JobStore) (j : VideoJob)
    (st : JobStatus) :
    j.job_id ∈ (s.updateJob j).statusIdx j.status
    ∧ (st ≠ j.status → (s.updateJob j).statusIdx st = s.statusIdx st)
    ∧ (∀ id, id ∈ s.statusIdx st → id ∈ (s.updateJob j).statusIdx st) := by
  refine ⟨?_, fun hne => ?_, fun id hid => ?_⟩
  · simp only [JobStore.updateJob, if_pos rfl]
    exact mem_zaddId_self _ _
  · simp [JobStore.updateJob, hne]
  · by_cases h : st = j.status
    · subst h
      simp only [JobStore.updateJob, if_pos rfl]
      exact mem_zaddId_of_mem _ hid
    · simpa [JobStore.updateJob, h] using hid

/-- C1, witness for the amended theorem at a concrete store. -/
theorem update_job_indexes_current_status_only_witness :
    "J" ∈ (storeWithPendingJob.updateJob (pendingJobJ.markSuccess "ok" 10)).statusIdx
        JobStatus.success
    ∧ (storeWithPendingJob.updateJob (pendingJobJ.markSuccess "ok" 10)).statusIdx
        JobStatus.failure = storeWithPendingJob.statusIdx JobStatus.failure := by
  have h := update_job_indexes_current_status_only storeWithPendingJob
    (pendingJobJ.markSuccess "ok" 10) JobStatus.failure
  exact ⟨h.1, h.2.1 (by decide)⟩

/-! ## C3 — the failure handler's retry path -/

/-- C3, counterexample.  For the FAILURE job with `retry_count = 0 <
max_retries = 3` and progress 4/5, `on_failure` schedules the retry and
moves the job back to PENDING with cleared error fields, but the job's
progress is still 4/5, not 0: `increment_retry` never resets progress. -/
theorem on_failure_retry_keeps_progress :
    (onFailure storeWithFailedJob "J" "boom" "tb" 10).2 = FailureAction.retryTask 60
    ∧ ((onFailure storeWithFailedJob "J" "boom" "tb" 10).1.getJob "J").map
        VideoJob.progress = some (4/5)
    ∧ ((onFailure storeWithFailedJob "J" "boom" "tb" 10).1.getJob "J").map
        VideoJob.status = some JobStatus.pending
    ∧ ((4 : ℚ)/5) ≠ 0 := by
  refine ⟨rfl, rfl, rfl, by norm_num⟩

/-- C3, amended.  On FAILURE with `retry_count < max_retries`, `on_failure`
increments the retry counter, clears the error and traceback fields,
transitions the job to PENDING and re-issues the task with a 60-second
countdown — but it leaves the job's progress at its previous value
instead of resetting it to 0. -/
theorem on_failure_retry_behavior (s : JobStore) (id : String) (j : VideoJob)
    (err tr : String) (now : ℚ)
    (hget : s.getJob id = some j) (hid : j.job_id = id)
    (hst : j.status = JobStatus.failure) (hlt : j.retry_count < j.max_retries) :
    (onFailure s id err tr now).2 = FailureAction.retryTask 60
    ∧ (onFailure s id err tr now).1.getJob id = some j.incrementRetry
    ∧ j.incrementRetry.retry_count = j.retry_count + 1
    ∧ j.incrementRetry.status = JobStatus.pending
    ∧ j.incrementRetry.error = none
    ∧ j.incrementRetry.error_traceback = none
    ∧ j.incrementRetry.progress = j.progress := by
  have hcr : j.canRetry = true := by
    simp [VideoJob.canRetry, hst, hlt]
  have hstore : (onFailure s id err tr now).1 = s.updateJob j.incrementRetry := by
    simp [onFailure, hget, hcr]
  refine ⟨by simp [onFailure, hget, hcr], ?_, rfl, rfl, rfl, rfl, rfl⟩
  rw [hstore]
  have h2 : j.incrementRetry.job_id = id := hid
  rw [← h2]
  exact getJob_updateJob_self _ _

/-- C3, witness for the amended theorem at the concrete failed job. -/
theorem on_failure_retry_behavior_witness :
    (onFailure storeWithFailedJob "J" "x" "t" 10).2 = FailureAction.retryTask 60
    ∧ (onFailure storeWithFailedJob "J" "x" "t" 10).1.getJob "J"
        = some failedJobJ.incrementRetry
    ∧ failedJobJ.incrementRetry.retry_count = failedJobJ.retry_count + 1
    ∧ failedJobJ.incrementRetry.status = JobStatus.pending
    ∧ failedJobJ.incrementRetry.error = none
    ∧ failedJobJ.incrementRetry.error_traceback = none
    ∧ failedJobJ.incrementRetry.progress = failedJobJ.progress :=
  on_failure_retry_behavior storeWithFailedJob "J" failedJobJ "x" "t" 10
    rfl rfl rfl (by decide)

/-! ## C5 — `mark_cancelled` on terminal jobs -/

/-- C5, counterexample.  Applying the store-level `mark_cancelled` to the
SUCCESS job `J` rewrites it to CANCELLED — the record is modified, not
left unchanged, refuting the claimed no-op on terminal jobs. -/
theorem mark_cancelled_mutates_terminal_job :
    ((storeWithSuccessJob.serviceMarkCancelled "J" 7).1.getJob "J").map
        VideoJob.status = some JobStatus.cancelled
    ∧ successJobJ.status = JobStatus.success
    ∧ JobStatus.cancelled ≠ JobStatus.success
    ∧ successJobJ.isComplete = true := by
  refine ⟨rfl, rfl, by decide, rfl⟩

/-- C5, amended.  `mark_cancelled` itself is unconditional: it always sets
CANCELLED (and is idempotent when both calls carry the same completion
timestamp).  The terminal-state guard lives one layer up, in the
`cancel_job` task, which returns `False` and leaves the store unchanged
when the job is already complete. -/
theorem mark_cancelled_unconditional_guard_in_cancel_task :
    (∀ (j : VideoJob) (t : ℚ),
        (j.markCancelled t).markCancelled t = j.markCancelled t
        ∧ (j.markCancelled t).status = JobStatus.cancelled)
    ∧ (∀ (s : JobStore) (id : String) (t : ℚ) (j : VideoJob),
        s.getJob id = some j → j.isComplete = true →
        cancelJobTask s id t = (s, false)) := by
  constructor
  · intro j t; exact ⟨rfl, rfl⟩
  · intro s id t j hget hterm
    simp [cancelJobTask, hget, hterm]

/-- C5, witness: the cancel task refuses the already-successful job `J`
and leaves the store untouched. -/
theorem mark_cancelled_unconditional_guard_in_cancel_task_witness :
    cancelJobTask storeWithSuccessJob "J" 7 = (storeWithSuccessJob, false) :=
  mark_cancelled_unconditional_guard_in_cancel_task.2
    storeWithSuccessJob "J" 7 successJobJ rfl rfl

/-! ## C6 — idempotence of `mark_started` -/

/-- C6, counterexample.  Calling `mark_started` at time 0 and again at
time 5 leaves `started_at = 5`: the second call moved the timestamp, so
`mark_started` is not idempotent after the first call. -/
theorem mark_started_moves_started_at_on_second_call :
    ((((storeWithPendingJob.serviceMarkStarted "J" 0).1.serviceMarkStarted
        "J" 5).1.getJob "J").map VideoJob.started_at) = some (some 5)
    ∧ (5 : ℚ) ≠ 0 := by
  refine ⟨rfl, by norm_num⟩

/-- C6, amended.  Every call to `mark_started` sets the state to STARTED
and overwrites `started_at` with the current time; a repeated call keeps
the state in {STARTED, PROCESSING} (namely STARTED) but moves `started_at`
to the later call's time, so idempotence holds only when both calls carry
the same timestamp. -/
theorem mark_started_overwrites_each_call (j : VideoJob) (t1 t2 : ℚ) :
    ((j.markStarted t1).markStarted t2).status = JobStatus.started
    ∧ ((j.markStarted t1).markStarted t2).started_at = some t2
    ∧ (j.markStarted t1).markStarted t1 = j.markStarted t1 :=
  ⟨rfl, rfl, rfl⟩

/-! ## C10 — listings silently skip missing records -/

/-- C10.  Every job returned by `get_user_jobs` or `get_jobs_by_status`
is backed by a live primary record in the store, and each listing returns
at most `limit` entries: ids whose record has expired or been deleted are
silently skipped, never surfaced as missing or null entries. -/
theorem listings_skip_missing_records (s : JobStore) (u : String)
    (limit offset : Nat) (st : JobStatus) :
    (∀ j ∈ s.getUserJobs u limit offset, ∃ id, s.getJob id = some j)
    ∧ (s.getUserJobs u limit offset).length ≤ limit
    ∧ (∀ j ∈ s.getJobsByStatus st limit, ∃ id, s.getJob id = some j)
    ∧ (s.getJobsByStatus st limit).length ≤ limit := by
  refine ⟨?_, ?_, ?_, ?_⟩
  · intro j hj
    simp only [JobStore.getUserJobs, List.mem_filterMap] at hj
    obtain ⟨id, _, hid⟩ := hj
    exact ⟨id, hid⟩
  · exact le_trans (List.length_filterMap_le _ _)
      (by rw [List.length_take]; exact min_le_left _ _)
  · intro j hj
    simp only [JobStore.getJobsByStatus, List.mem_filterMap] at hj
    obtain ⟨id, _, hid⟩ := hj
    exact ⟨id, hid⟩
  · exact le_trans (List.length_filterMap_le _ _)
      (by rw [List.length_take]; exact min_le_left _ _)

/-! ## C7 — priority-queue ordering -/

/-- C7, counterexample.  Offering jobs A (requested priority 9),
B (priority 2) and C (priority 5) back-to-back through
`create_video_job` and draining the queue with a single worker executes
them in order A, B, C — not the claimed B, C, A — because every job was
enqueued with `JobPriority.NORMAL`. -/
theorem queue_scenario_executes_a_b_c :
    popAllLabels 10 queueScenarioState.heap = ["A", "B", "C"]
    ∧ ["A", "B", "C"] ≠ ["B", "C", "A"]
    ∧ queueScenarioState.heap.toList.map QJob.priority
        = [JobPriorityNormal, JobPriorityNormal, JobPriorityNormal] := by decide

/-- C7, amended.  `create_video_job` enqueues every job at
`JobPriority.NORMAL` regardless of the request, so the scenario executes
A, B, C in offer order; when priorities do differ, a lower priority value
is taken first (H before N before L); and within one priority class ties
are served in heap order, which is not FIFO — five equal-priority offers
0..4 pop as 0, 2, 4, 1, 3. -/
theorem queue_normal_priority_and_heap_order :
    queueScenarioState.heap.toList.map QJob.priority
        = [JobPriorityNormal, JobPriorityNormal, JobPriorityNormal]
    ∧ popAllLabels 10 queueScenarioState.heap = ["A", "B", "C"]
    ∧ popAllLabels 10 mixedPriorityHeap = ["H", "N", "L"]
    ∧ popAllLabels 10 equalPriorityHeap = ["0", "2", "4", "1", "3"]
    ∧ ["0", "2", "4", "1", "3"] ≠ ["0", "1", "2", "3", "4"] := by decide

/-! ## C9 — validation failures never create a job record -/

/-- C9.  On the `VideoProcessor.create_video_job` path, a script that is
empty after stripping, an unknown platform, or an unsupported aspect
ratio is rejected with a validation error before any job record, rate
timestamp or queue entry is produced — the processor state comes back
unchanged.  On the `/api/v1/jobs` path, a priority outside [1,10] fails
the request model's pydantic bound before `create_job` runs, leaving the
job store unchanged. -/
theorem validation_failure_leaves_state_unchanged
    (st : PState) (r : VideoRequest) (jobId : String) (now : ℤ)
    (s : JobStore) (p : ℤ) (r2 : VideoRequest) (jobId2 : String) (now2 : ℚ) :
    ((pyStrip r.script_content = "" ∨ r.platform ∉ knownPlatforms
        ∨ r.aspect_ratio ∉ validAspectRatios) →
      createVideoJob st r jobId now
        = (st, Except.error SubmitError.validationError))
    ∧ (¬(1 ≤ p ∧ p ≤ 10) →
      jobsApiCreate s p r2 jobId2 now2 = (s, Except.error ())) := by
  constructor
  · intro h
    by_cases hp : videoRequestParseOk r = true
    · have hv : validateRequest r = false := by
        rcases h with h | h | h
        · simp [validateRequest, h]
        · simp [validateRequest, h]
        · exfalso
          rw [videoRequestParseOk, Bool.and_eq_true] at hp
          exact h (by simpa using hp.2)
      simp [createVideoJob, hp, hv]
    · have hp2 : videoRequestParseOk r = false := by
        cases hb : videoRequestParseOk r
        · rfl
        · exact absurd hb hp
      simp [createVideoJob, hp2]
  · intro h
    have hb : createJobRequestParseOk p = false := by
      simp only [createJobRequestParseOk, Bool.and_eq_false_iff,
        decide_eq_false_iff_not]
      omega
    simp [jobsApiCreate, hb]

/-- C9, witness: a whitespace-only script is rejected with the state
unchanged, and priority 11 is rejected by the jobs API with the store
unchanged. -/
theorem validation_failure_leaves_state_unchanged_witness :
    createVideoJob {} blankScriptRequest "J" 0
        = ({}, Except.error SubmitError.validationError)
    ∧ jobsApiCreate {} 11 (sampleRequest "u1") "J" 0
        = ({}, Except.error ()) := by
  have h := validation_failure_leaves_state_unchanged {} blankScriptRequest "J" 0
    {} 11 (sampleRequest "u1") "J" 0
  exact ⟨h.1 (Or.inl (by decide)), h.2 (by decide)⟩

/-! ## C8 — the rolling-hour rate limit -/

/-- C8, part one: with ten (or more) surviving timestamps in the user's
rolling-hour window, a further valid submission is rejected as
rate-limited; the job records are untouched and the user's timestamp list
is only trimmed — every surviving entry was already present, nothing is
appended. -/
theorem rate_limit_rejects_without_recording
    (st : PState) (r : VideoRequest) (jobId : String) (now : ℤ)
    (hparse : videoRequestParseOk r = true)
    (hvalid : validateRequest r = true)
    (hfull : maxVideosPerHour ≤
      (((getAssoc st.rate r.user_id).getD []).filter
        (fun ts => decide (now - ratelimitWindow < ts))).length) :
    (createVideoJob st r jobId now).2 = Except.error SubmitError.rateLimited
    ∧ (createVideoJob st r jobId now).1.records = st.records
    ∧ (createVideoJob st r jobId now).1.heap = st.heap
    ∧ getAssoc (createVideoJob st r jobId now).1.rate r.user_id
        = some (((getAssoc st.rate r.user_id).getD []).filter
            (fun ts => decide (now - ratelimitWindow < ts)))
    ∧ ∀ ts ∈ ((getAssoc st.rate r.user_id).getD []).filter
        (fun ts => decide (now - ratelimitWindow < ts)),
        ts ∈ (getAssoc st.rate r.user_id).getD [] := by
  have hres : createVideoJob st r jobId now
      = (PState.mk
          (setAssoc st.rate r.user_id
            (((getAssoc st.rate r.user_id).getD []).filter
              (fun ts => decide (now - ratelimitWindow < ts))))
          st.records st.heap st.seqCounter,
         Except.error SubmitError.rateLimited) := by
    simp [createVideoJob, hparse, hvalid, hfull]
  refine ⟨by rw [hres], by rw [hres], by rw [hres], ?_, ?_⟩
  · rw [hres]
    exact getAssoc_setAssoc_self _ _ _
  · intro ts hts
    exact (List.mem_filter.1 hts).1

theorem countP_filter_window (l : List ℤ) (w c : ℤ) (hc : w ≤ c) :
    (l.filter (fun ts => decide (w < ts))).countP (fun ts => decide (c < ts))
      = l.countP (fun ts => decide (c < ts)) := by
  rw [List.countP_filter]
  apply List.countP_congr
  intro a _
  constructor
  · intro ha
    simp only [Bool.and_eq_true, decide_eq_true_eq] at ha
    simp [ha.1]
  · intro ha
    simp only [decide_eq_true_eq] at ha
    simp [ha, lt_of_le_of_lt hc ha]

theorem rateInv_mono {st : PState} {t t2 : ℤ} (h : RateInv st t) (hle : t ≤ t2) :
    RateInv st t2 := by
  obtain ⟨h1, h2⟩ := h
  exact ⟨fun u c hc => h1 u c (le_trans (by omega) hc), h2⟩

theorem rateInv_step (st : PState) (t now : ℤ) (r : VideoRequest) (jobId : String)
    (hinv : RateInv st t) (hle : t ≤ now) :
    RateInv (createVideoJob st r jobId now).1 now := by
  have hinv2 : RateInv st now := rateInv_mono hinv hle
  rcases (Bool.eq_false_or_eq_true (videoRequestParseOk r)).symm with hp | hp
  · simpa [createVideoJob, hp] using hinv2
  rcases (Bool.eq_false_or_eq_true (validateRequest r)).symm with hv | hv
  · simpa [createVideoJob, hp, hv] using hinv2
  obtain ⟨h1, h2⟩ := hinv2
  by_cases hfull : maxVideosPerHour ≤
      (((getAssoc st.rate r.user_id).getD []).filter
        (fun ts => decide (now - ratelimitWindow < ts))).length
  · have hres : (createVideoJob st r jobId now).1 = PState.mk
        (setAssoc st.rate r.user_id
          (((getAssoc st.rate r.user_id).getD []).filter
            (fun ts => decide (now - ratelimitWindow < ts))))
        st.records st.heap st.seqCounter := by
      simp [createVideoJob, hp, hv, hfull]
    rw [hres]
    constructor
    · intro u c hc
      by_cases hu : u = r.user_id
      · subst hu
        rw [getAssoc_setAssoc_self]
        simp only [Option.getD_some]
        rw [countP_filter_window _ _ _ hc]
        exact h1 _ c hc
      · rw [getAssoc_setAssoc_ne _ _ _ _ hu]
        exact h1 u c hc
    · intro u
      by_cases hu : u = r.user_id
      · subst hu
        rw [getAssoc_setAssoc_self]
        simp only [Option.getD_some]
        exact le_trans (List.length_filter_le _ _) (h2 _)
      · rw [getAssoc_setAssoc_ne _ _ _ _ hu]
        exact h2 u
  · have hres : (createVideoJob st r jobId now).1 = PState.mk
        (setAssoc st.rate r.user_id
          ((((getAssoc st.rate r.user_id).getD []).filter
            (fun ts => decide (now - ratelimitWindow < ts))) ++ [now]))
        (st.records ++ [(jobId, r.user_id, now)])
        (heappush st.heap
          { priority := JobPriorityNormal, seq := st.seqCounter, label := jobId })
        (st.seqCounter + 1) := by
      simp [createVideoJob, hp, hv, hfull, setAssoc_setAssoc]
    rw [hres]
    constructor
    · intro u c hc
      have hrec : recordTimesFor (PState.mk
          (setAssoc st.rate r.user_id
            ((((getAssoc st.rate r.user_id).getD []).filter
              (fun ts => decide (now - ratelimitWindow < ts))) ++ [now]))
          (st.records ++ [(jobId, r.user_id, now)])
          (heappush st.heap
            { priority := JobPriorityNormal, seq := st.seqCounter, label := jobId })
          (st.seqCounter + 1)) u
          = recordTimesFor st u ++ (if r.user_id = u then [now] else []) := by
        simp only [recordTimesFor, List.filterMap_append]
        congr 1
        by_cases huu : r.user_id = u
        · simp [huu]
        · simp [huu]
      rw [hrec, List.countP_append]
      by_cases hu : u = r.user_id
      · subst hu
        rw [getAssoc_setAssoc_self]
        simp only [Option.getD_some, eq_self_iff_true, if_true]
        rw [List.countP_append, countP_filter_window _ _ _ hc]
        have hrecs := h1 r.user_id c hc
        omega
      · rw [getAssoc_setAssoc_ne _ _ _ _ hu]
        have hnil : (if r.user_id = u then [now] else []) = ([] : List ℤ) := by
          have hne : r.user_id ≠ u := fun hh => hu hh.symm
          simp [hne]
        rw [hnil]
        simp only [List.countP_nil, Nat.add_zero]
        exact h1 u c hc
    · intro u
      by_cases hu : u = r.user_id
      · subst hu
        rw [getAssoc_setAssoc_self]
        simp only [Option.getD_some, List.length_append, List.length_cons,
          List.length_nil]
        simp only [maxVideosPerHour] at hfull ⊢
        omega
      · rw [getAssoc_setAssoc_ne _ _ _ _ hu]
        exact h2 u

theorem rateInv_empty (t : ℤ) : RateInv {} t := by
  constructor
  · intro u c hc
    simp [recordTimesFor, getAssoc]
  · intro u
    simp [getAssoc, maxVideosPerHour]

theorem rateInv_run (trace : List (VideoRequest × String × ℤ)) :
    ∀ (st : PState) (t : ℤ), RateInv st t →
      List.Chain (· ≤ ·) t (trace.map (fun x => x.2.2)) →
      RateInv (runSubs st trace) (endTimeOf t trace) := by
  induction trace with
  | nil => exact fun st t h _ => h
  | cons x rest ih =>
      intro st t h hchain
      obtain ⟨r, jobId, tm⟩ := x
      rw [List.map_cons, List.chain_cons] at hchain
      exact ih _ tm (rateInv_step st t tm r jobId h hchain.1) hchain.2

/-- C8.  First part: with ten timestamps alive in the user's rolling-hour
window, a further valid submission is rejected as rate-limited, the job
records are untouched, and the user's timestamp list is merely trimmed —
nothing is appended.  Second part: starting from a fresh processor, any
sequence of submissions at non-decreasing times leaves every user with at
most ten job records created inside the rolling hour that ends at the
last submission. -/
theorem rate_limit_ten_per_rolling_hour :
    (∀ (st : PState) (r : VideoRequest) (jobId : String) (now : ℤ),
      videoRequestParseOk r = true → validateRequest r = true →
      maxVideosPerHour ≤
        (((getAssoc st.rate r.user_id).getD []).filter
          (fun ts => decide (now - ratelimitWindow < ts))).length →
      (createVideoJob st r jobId now).2 = Except.error SubmitError.rateLimited
      ∧ (createVideoJob st r jobId now).1.records = st.records
      ∧ getAssoc (createVideoJob st r jobId now).1.rate r.user_id
          = some (((getAssoc st.rate r.user_id).getD []).filter
              (fun ts => decide (now - ratelimitWindow < ts))))
    ∧ (∀ (trace : List (VideoRequest × String × ℤ)) (u : String),
      List.Chain' (· ≤ ·) (trace.map (fun x => x.2.2)) →
      (recordTimesFor (runSubs {} trace) u).countP
        (fun ts => decide (endTimeOf 0 trace - ratelimitWindow < ts))
        ≤ maxVideosPerHour) := by
  constructor
  · intro st r jobId now hp hv hfull
    have h := rate_limit_rejects_without_recording st r jobId now hp hv hfull
    exact ⟨h.1, h.2.1, h.2.2.2.1⟩
  · intro trace u hchain
    cases trace with
    | nil => simp [runSubs, recordTimesFor]
    | cons x rest =>
        obtain ⟨r, jobId, tm⟩ := x
        have hch : List.Chain (· ≤ ·) tm
            (List.map (fun x => x.2.2) ((r, jobId, tm) :: rest)) := by
          rw [List.map_cons, List.chain_cons]
          refine ⟨le_refl tm, ?_⟩
          rw [List.map_cons] at hchain
          exact hchain
        have hinv := rateInv_run ((r, jobId, tm) :: rest) {} tm (rateInv_empty tm) hch
        obtain ⟨h1, h2⟩ := hinv
        have hb := h1 u (endTimeOf 0 ((r, jobId, tm) :: rest) - ratelimitWindow)
          (le_refl _)
        exact le_trans hb (le_trans (List.countP_le_length _) (h2 u))

/-- C8, witness: after ten submissions by `u2` within the hour, the
eleventh is rejected with no record created, and the trace of all eleven
leaves `u2` with at most ten records in the rolling hour. -/
theorem rate_limit_ten_per_rolling_hour_witness :
    (createVideoJob tenSubmissionState (sampleRequest "u2") "K" 10).2
        = Except.error SubmitError.rateLimited
    ∧ (createVideoJob tenSubmissionState (sampleRequest "u2") "K" 10).1.records
        = tenSubmissionState.records
    ∧ (recordTimesFor (runSubs {} elevenTrace) "u2").countP
        (fun ts => decide (endTimeOf 0 elevenTrace - ratelimitWindow < ts))
        ≤ maxVideosPerHour := by
  have h := rate_limit_ten_per_rolling_hour
  have ha := h.1 tenSubmissionState (sampleRequest "u2") "K" 10
    (by decide) (by decide) (by decide)
  have hch : List.Chain' (· ≤ ·) (elevenTrace.map (fun x => x.2.2)) := by
    have hm : elevenTrace.map (fun x => x.2.2)
        = ([0, 1, 2, 3, 4, 5, 6, 7, 8, 9, 10] : List ℤ) := rfl
    rw [hm]
    simp [List.chain'_cons, List.chain'_singleton]
  exact ⟨ha.1, ha.2.1, h.2 elevenTrace "u2" hch⟩

/-- C10, witness: in the store whose PENDING index still holds the dangling
id `gone`, the user listing returns the live job and skips `gone`. -/
theorem listings_skip_missing_records_witness :
    (∃ id, storeWithDanglingIndexEntry.getJob id = some pendingJobJ)
    ∧ (storeWithDanglingIndexEntry.getUserJobs "u1" 5 0).length ≤ 5 := by
  have h := listings_skip_missing_records storeWithDanglingIndexEntry "u1" 5 0
    JobStatus.pending
  have hmem : pendingJobJ ∈ storeWithDanglingIndexEntry.getUserJobs "u1" 5 0 := by
    have hl : storeWithDanglingIndexEntry.getUserJobs "u1" 5 0 = [pendingJobJ] := rfl
    rw [hl]
    exact List.mem_singleton.mpr rfl
  exact ⟨h.1 pendingJobJ hmem, h.2.1⟩

/-! ## C4 — measured audio durations drive all timing -/

theorem offsetsFrom_length (l : List Scene) (cur : ℚ) :
    (offsetsFrom cur l).length = l.length := by
  induction l generalizing cur with
  | nil => simp [offsetsFrom]
  | cons sc rest ih => simp [offsetsFrom, ih]

theorem offsetsFrom_get (l : List Scene) : ∀ (cur : ℚ) (i : Nat)
    (h : i < l.length),
    (offsetsFrom cur l).get ⟨i, by simpa [offsetsFrom_length] using h⟩
      = cur + ((l.take i).map Scene.duration).sum := by
  induction l with
  | nil => intro cur i h; simp at h
  | cons sc rest ih =>
      intro cur i h
      cases i with
      | zero => simp [offsetsFrom]
      | succ n =>
          have hn : n < rest.length := by simpa using h
          have := ih (cur + sc.duration) n hn
          simpa [offsetsFrom, List.take_succ_cons, add_assoc] using this

theorem collectSubtitleSegments_eq (gen : String → String → List SubtitleSegment)
    (l : List Scene) : ∀ cur : ℚ,
    collectSubtitleSegments gen l cur
      = ((offsetsFrom cur l).zip l).flatMap
          (fun p => (gen (p.2.audio_file.getD "") p.2.text).map
            (fun seg => shiftSegment seg p.1)) := by
  induction l with
  | nil => intro cur; simp [collectSubtitleSegments, offsetsFrom]
  | cons sc rest ih =>
      intro cur
      simp only [collectSubtitleSegments, offsetsFrom, List.zip_cons_cons,
        List.flatMap_cons, ih (cur + sc.duration)]

/-- C4.  After narration, every scene's duration equals the probed
duration of its synthesized audio; the sum of final scene durations
equals the sum of the measured audio durations; the subtitle pass shifts
the segments generated for each scene by exactly the running offset, and
the offset of scene `i` is the cumulative sum of the measured audio
durations of all preceding scenes. -/
theorem narration_measured_durations_drive_timing
    (synth : String → String) (probe : String → ℚ) (scenes : List Scene)
    (gen : String → String → List SubtitleSegment) :
    (∀ i (h : i < scenes.length),
      ((generateAudioForScenes synth probe scenes).get
          ⟨i, by simpa [generateAudioForScenes] using h⟩).duration
        = probe (synth ((scenes.get ⟨i, h⟩).text)))
    ∧ ((generateAudioForScenes synth probe scenes).map Scene.duration).sum
        = (scenes.map (fun sc => probe (synth sc.text))).sum
    ∧ collectSubtitleSegments gen (generateAudioForScenes synth probe scenes) 0
        = ((offsetsFrom 0 (generateAudioForScenes synth probe scenes)).zip
            (generateAudioForScenes synth probe scenes)).flatMap
            (fun p => (gen (p.2.audio_file.getD "") p.2.text).map
              (fun seg => shiftSegment seg p.1))
    ∧ (∀ i (h : i < scenes.length),
      (offsetsFrom 0 (generateAudioForScenes synth probe scenes)).get
          ⟨i, by simpa [offsetsFrom_length, generateAudioForScenes] using h⟩
        = ((scenes.take i).map (fun sc => probe (synth sc.text))).sum) := by
  refine ⟨?_, ?_, ?_, ?_⟩
  · intro i h
    simp [generateAudioForScenes, List.get_map]
  · simp [generateAudioForScenes, List.map_map]
    rfl
  · exact collectSubtitleSegments_eq gen _ 0
  · intro i h
    have h2 : i < (generateAudioForScenes synth probe scenes).length := by
      simpa [generateAudioForScenes] using h
    refine Eq.trans (offsetsFrom_get (generateAudioForScenes synth probe scenes)
      0 i h2) ?_
    simp [generateAudioForScenes, List.map_take, List.map_map]
    rfl

/-- C4, witness: with two concrete scenes and concrete collaborators, the
second scene's duration is the probed value and its subtitle offset is
the first scene's measured duration. -/
theorem narration_measured_durations_drive_timing_witness :
    ((generateAudioForScenes sampleSynth sampleProbe sampleScenes).get
        ⟨1, by simpa [generateAudioForScenes] using (by decide : 1 < sampleScenes.length)⟩).duration
      = sampleProbe (sampleSynth ((sampleScenes.get ⟨1, by decide⟩).text))
    ∧ (offsetsFrom 0 (generateAudioForScenes sampleSynth sampleProbe sampleScenes)).get
        ⟨1, by simpa [offsetsFrom_length, generateAudioForScenes] using
          (by decide : 1 < sampleScenes.length)⟩
      = ((sampleScenes.take 1).map
          (fun sc => sampleProbe (sampleSynth sc.text))).sum := by
  have h := narration_measured_durations_drive_timing sampleSynth sampleProbe
    sampleScenes sampleGen
  exact ⟨h.1 1 (by decide), h.2.2.2 1 (by decide)⟩

/-! ## C2 — progress emissions -/

theorem mapCompositor_le {p : ℚ} (hp : p ≤ 1) :
    mapCompositorProgress p ≤ 19/20 := by
  rw [mapCompositorProgress]
  linarith

theorem mapCompositor_ge {p : ℚ} (hp : 0 ≤ p) :
    4/5 ≤ mapCompositorProgress p := by
  rw [mapCompositorProgress]
  linarith

theorem mapCompositor_mono {p q : ℚ} (h : p ≤ q) :
    mapCompositorProgress p ≤ mapCompositorProgress q := by
  rw [mapCompositorProgress, mapCompositorProgress]
  linarith

theorem mem_audioSceneEmits {n : Nat} (hn : 1 ≤ n) {x : ℚ}
    (hx : x ∈ audioSceneEmits n) : 3/10 ≤ x ∧ x ≤ 3/5 := by
  rw [audioSceneEmits] at hx
  rcases List.mem_map.1 hx with ⟨i, hi, rfl⟩
  rw [List.mem_range] at hi
  have hn0 : (0:ℚ) < (n:ℚ) := by exact_mod_cast hn
  have h2 : ((i:ℚ) + 1) ≤ (n:ℚ) := by exact_mod_cast Nat.succ_le_of_lt hi
  have h3 : 0 < ((i:ℚ) + 1) / n := div_pos (by positivity) hn0
  have h4 : ((i:ℚ) + 1) / n ≤ 1 := by
    rw [div_le_one hn0]
    exact h2
  have h5 : 3/10 * ((i:ℚ) + 1) / n = 3/10 * (((i:ℚ) + 1) / n) := by ring
  constructor
  · rw [h5]
    linarith
  · rw [h5]
    linarith

theorem chain'_audioSceneEmits (n : Nat) :
    List.Chain' (· ≤ ·) (audioSceneEmits n) := by
  cases n with
  | zero => simp [audioSceneEmits]
  | succ m =>
      rw [audioSceneEmits, List.chain'_map, List.chain'_range_succ]
      intro j hj
      have hd : (0:ℚ) < ((m:ℚ) + 1) := by positivity
      push_cast
      gcongr
      linarith

theorem eq_of_mem_head?_cons {c y : ℚ} {l : List ℚ} (hy : y ∈ (c :: l).head?) :
    y = c := by
  rw [List.head?_cons, Option.mem_def, Option.some.injEq] at hy
  exact hy.symm

theorem eq_of_mem_getLast?_lit {x a : ℚ} {l : List ℚ} (hl : l.getLast? = some a)
    (hx : x ∈ l.getLast?) : x = a := by
  rw [hl, Option.mem_def, Option.some.injEq] at hx
  exact hx.symm

theorem mem_compositorMapped {n : Nat} (hn : 1 ≤ n) {y : ℚ}
    (hy : y ∈ (compositorEmits n).map mapCompositorProgress) :
    3/4 ≤ y ∧ y ≤ 19/20 := by
  rw [compositorEmits] at hy
  by_cases h1 : n = 1
  · rw [if_pos h1] at hy
    simp only [List.map_cons, List.map_nil, List.mem_singleton] at hy
    subst hy
    rw [mapCompositorProgress]
    norm_num
  · rw [if_neg h1, List.map_append, List.map_map] at hy
    rcases List.mem_append.1 hy with hy | hy
    · rcases List.mem_map.1 hy with ⟨i, hi, rfl⟩
      rw [List.mem_range] at hi
      have hn0 : (0:ℚ) < (n:ℚ) + 1 := by positivity
      have h2 : ((i:ℚ) + 1) ≤ (n:ℚ) + 1 := by
        have h5 : ((i:ℚ) + 1) ≤ (n:ℚ) := by exact_mod_cast Nat.succ_le_of_lt hi
        linarith
      have h3 : (0:ℚ) ≤ ((i:ℚ) + 1) / ((n:ℚ) + 1) := by positivity
      have h4 : ((i:ℚ) + 1) / ((n:ℚ) + 1) ≤ 1 := by
        rw [div_le_one hn0]
        exact h2
      constructor
      · have := mapCompositor_ge h3
        simp only [Function.comp]
        linarith
      · have := mapCompositor_le h4
        simp only [Function.comp]
        linarith
    · simp only [List.map_cons, List.map_nil, List.mem_singleton] at hy
      subst hy
      rw [mapCompositorProgress]
      norm_num

theorem chain'_compositorMapped (n : Nat) :
    List.Chain' (· ≤ ·) ((compositorEmits n).map mapCompositorProgress) := by
  rw [compositorEmits]
  by_cases h1 : n = 1
  · rw [if_pos h1]
    simp
  · rw [if_neg h1, List.map_append, List.map_map]
    rw [List.chain'_append]
    refine ⟨?_, by simp, ?_⟩
    · rw [List.chain'_map]
      cases n with
      | zero => simp
      | succ m =>
          rw [List.chain'_range_succ]
          intro j hj
          simp only [Function.comp]
          apply mapCompositor_mono
          have hd : (0:ℚ) < ((m:ℚ) + 1 + 1) := by positivity
          push_cast
          gcongr
          linarith
    · intro x hx y hy
      have hy2 : y = mapCompositorProgress 1 := by
        simp only [List.map_cons, List.map_nil] at hy
        exact eq_of_mem_head?_cons hy
      have hx2 := List.mem_of_mem_getLast? hx
      rcases List.mem_map.1 hx2 with ⟨i, hi, rfl⟩
      rw [List.mem_range] at hi
      have hn0 : (0:ℚ) < (n:ℚ) + 1 := by positivity
      have h2 : ((i:ℚ) + 1) ≤ (n:ℚ) + 1 := by
        have h5 : ((i:ℚ) + 1) ≤ (n:ℚ) := by exact_mod_cast Nat.succ_le_of_lt hi
        linarith
      have h4 : ((i:ℚ) + 1) / ((n:ℚ) + 1) ≤ 1 := by
        rw [div_le_one hn0]
        exact h2
      rw [hy2]
      simp only [Function.comp]
      exact mapCompositor_mono h4

theorem mem_successEmits_bounds {n : Nat} (hn : 1 ≤ n) (subs : Bool) :
    ∀ x ∈ successEmits n subs, 0 ≤ x ∧ x ≤ 1 := by
  intro x hx
  rw [successEmits] at hx
  rcases List.mem_append.1 hx with h | h
  · rcases List.mem_append.1 h with h | h
    · rcases List.mem_append.1 h with h | h
      · rcases List.mem_append.1 h with h | h
        · rcases List.mem_append.1 h with h | h
          · simp at h
            rcases h with rfl | rfl | rfl <;> norm_num
          · have hb := mem_audioSceneEmits hn h
            exact ⟨by linarith [hb.1], by linarith [hb.2]⟩
        · simp at h
          rcases h with rfl | rfl <;> norm_num
      · have hb := mem_compositorMapped hn h
        exact ⟨by linarith [hb.1], by linarith [hb.2]⟩
    · cases subs with
      | false => simp at h
      | true =>
          simp at h
          subst h
          norm_num
  · simp at h
    rcases h with rfl | rfl <;> norm_num

theorem successEmits_getLast (n : Nat) (subs : Bool) :
    (successEmits n subs).getLast? = some 1 := by
  rw [successEmits, List.getLast?_append]
  rfl

theorem failureEmits_getLast (n k : Nat) :
    (failureEmitsDuringAudio n k).getLast? = some (-1) := by
  rw [failureEmitsDuringAudio]
  exact List.getLast?_concat _

theorem chain'_successEmits {n : Nat} (hn : 1 ≤ n) :
    List.Chain' (· ≤ ·) (successEmits n false) := by
  rw [successEmits]
  rw [show (if (false : Bool) then [(17:ℚ)/20] else []) = ([] : List ℚ) from rfl,
    List.append_nil]
  rw [List.chain'_append]
  refine ⟨?_, by norm_num [List.chain'_cons, List.chain'_singleton], ?_⟩
  · rw [List.chain'_append]
    refine ⟨?_, chain'_compositorMapped n, ?_⟩
    · rw [List.chain'_append]
      refine ⟨?_, by norm_num [List.chain'_cons, List.chain'_singleton], ?_⟩
      · rw [List.chain'_append]
        refine ⟨by norm_num [List.chain'_cons, List.chain'_singleton],
          chain'_audioSceneEmits n, ?_⟩
        intro x hx y hy
        have hx2 : x = 3/10 := eq_of_mem_getLast?_lit
          (show ([1/20, 1/10, 3/10] : List ℚ).getLast? = some (3/10) from rfl) hx
        have hy2 := (mem_audioSceneEmits hn (List.mem_of_mem_head? hy)).1
        rw [hx2]
        linarith
      · intro x hx y hy
        have hy2 : y = 3/5 := eq_of_mem_head?_cons hy
        have hx2 := List.mem_of_mem_getLast? hx
        rw [hy2]
        rcases List.mem_append.1 hx2 with h | h
        · simp at h
          rcases h with rfl | rfl | rfl <;> norm_num
        · linarith [(mem_audioSceneEmits hn h).2]
    · intro x hx y hy
      have hy2 := (mem_compositorMapped hn (List.mem_of_mem_head? hy)).1
      have hx2 := List.mem_of_mem_getLast? hx
      rcases List.mem_append.1 hx2 with h | h
      · rcases List.mem_append.1 h with h | h
        · simp at h
          rcases h with rfl | rfl | rfl <;> linarith
        · linarith [(mem_audioSceneEmits hn h).2]
      · simp at h
        rcases h with rfl | rfl <;> linarith
  · intro x hx y hy
    have hy2 : y = 19/20 := eq_of_mem_head?_cons hy
    have hx2 := List.mem_of_mem_getLast? hx
    rw [hy2]
    rcases List.mem_append.1 hx2 with h | h
    · rcases List.mem_append.1 h with h | h
      · rcases List.mem_append.1 h with h | h
        · simp at h
          rcases h with rfl | rfl | rfl <;> norm_num
        · linarith [(mem_audioSceneEmits hn h).2]
      · simp at h
        rcases h with rfl | rfl <;> norm_num
    · linarith [(mem_compositorMapped hn h).2]

/-- C2, counterexample.  On a successful two-scene attempt with subtitles
enabled, the emitted progress sequence is not non-decreasing (the fixed
0.85 "Adding subtitles" emission follows the compositor's 0.95), and an
attempt that fails during narration ends by emitting -1, which lies
outside [0, 1]. -/
theorem success_trace_with_subtitles_not_monotone :
    ¬ List.Chain' (· ≤ ·) (successEmits 2 true)
    ∧ (failureEmitsDuringAudio 2 1).getLast? = some (-1)
    ∧ ¬ ((0:ℚ) ≤ -1) := by
  refine ⟨?_, failureEmits_getLast 2 1, by norm_num⟩
  have h : successEmits 2 true
      = [1/20, 1/10, 3/10, 9/20, 3/5, 3/5, 3/4, 17/20, 9/10, 19/20,
         17/20, 19/20, 1] := by
    norm_num [successEmits, audioSceneEmits, compositorEmits,
      mapCompositorProgress, List.range_succ, List.range_zero]
  rw [h]
  norm_num [List.chain'_cons, List.chain'_singleton]

/-- C2, amended.  On an attempt that ends in SUCCESS every emitted
progress value lies in [0, 1] and the final emission is exactly 1.0; the
sequence is non-decreasing whenever subtitles are disabled (with
subtitles enabled the fixed 0.85 emission after the compositor callbacks
breaks monotonicity, as the counterexample shows); an attempt that ends
in FAILURE emits a final -1, so its last emission is not 1.0 but also
falls outside [0, 1]. -/
theorem progress_emissions_amended (n k : Nat) (subs : Bool) (hn : 1 ≤ n) :
    (∀ x ∈ successEmits n subs, 0 ≤ x ∧ x ≤ 1)
    ∧ (successEmits n subs).getLast? = some 1
    ∧ List.Chain' (· ≤ ·) (successEmits n false)
    ∧ (failureEmitsDuringAudio n k).getLast? = some (-1)
    ∧ ¬ ((0:ℚ) ≤ -1) :=
  ⟨mem_successEmits_bounds hn subs, successEmits_getLast n subs,
   chain'_successEmits hn, failureEmits_getLast n k, by norm_num⟩

/-- C2, witness for the amended theorem at a concrete two-scene attempt. -/
theorem progress_emissions_amended_witness :
    (∀ x ∈ successEmits 2 true, 0 ≤ x ∧ x ≤ 1)
    ∧ (successEmits 2 true).getLast? = some 1
    ∧ List.Chain' (· ≤ ·) (successEmits 2 false)
    ∧ (failureEmitsDuringAudio 2 1).getLast? = some (-1)
    ∧ ¬ ((0:ℚ) ≤ -1) :=
  progress_emissions_amended 2 1 true (by decide)

end ScriptSensei
